import Mathlib

/-!
Verification of the name-reconciliation and pay-computation core of the
PRL timesheet converter (`src/app.py`, with the drifted variant
`src/app_100%.py` and the near-duplicate `src/unnamed/part_000`).

The embedding models Python strings as Lean `String`/`List Char`, Python
floats as `ℚ` (the spec's "decimals carry full precision" semantics; no
claim depends on binary floating point), and pandas' NaN/missing values
as `Option`.  Library calls (`unicodedata`, `difflib.SequenceMatcher`,
`pd.to_numeric`) are modelled function-by-function below, each next to
the definition that uses it.
-/

namespace PRL

/-- Python `str` whitespace as far as the repository's data can contain it
(the ASCII whitespace characters: space, tab, newline, carriage return,
vertical tab, form feed).  Used for `str.strip()` and the regexes `\s`. -/
def isPySpace (c : Char) : Bool :=
  c == ' ' || c == Char.ofNat 9 || c == Char.ofNat 10 || c == Char.ofNat 13 ||
  c == Char.ofNat 11 || c == Char.ofNat 12

/-- Python `str.strip()` on a character list: drop leading and trailing
whitespace. -/
def pyStripChars (l : List Char) : List Char :=
  ((l.dropWhile isPySpace).reverse.dropWhile isPySpace).reverse

/-- Python `str.strip()` on a string. -/
def pyStrip (s : String) : String :=
  String.mk (pyStripChars s.data)

/-- Model of Python `str.lower()` restricted to the character repertoire the
repository's data exercises: ASCII letters and the Latin-1 accented capitals
(for example the E-acute of "JOSÉ" maps to e-acute); every other character is
left unchanged.  On the output alphabet of `normalize_name` (`[a-z0-9 ]`)
this is the identity, exactly as Python's `lower` is. -/
def pyLower (c : Char) : Char :=
  if 'A' ≤ c ∧ c ≤ 'Z' then Char.ofNat (c.toNat + 32)
  else if 192 ≤ c.toNat ∧ c.toNat ≤ 222 ∧ c.toNat ≠ 215 then Char.ofNat (c.toNat + 32)
  else c

/-- Model of `unicodedata.normalize("NFD", ·)` at the level of one character,
restricted to the Latin-1 accented lowercase letters (the repertoire the
spec's examples use); any other character decomposes to itself.  The second
element of each decomposition is the combining mark (category Mn). -/
def decomposeChar (c : Char) : List Char :=
  if c = 'á' then ['a', Char.ofNat 769] else if c = 'à' then ['a', Char.ofNat 768]
  else if c = 'â' then ['a', Char.ofNat 770] else if c = 'ä' then ['a', Char.ofNat 776]
  else if c = 'ã' then ['a', Char.ofNat 771]
  else if c = 'é' then ['e', Char.ofNat 769] else if c = 'è' then ['e', Char.ofNat 768]
  else if c = 'ê' then ['e', Char.ofNat 770] else if c = 'ë' then ['e', Char.ofNat 776]
  else if c = 'í' then ['i', Char.ofNat 769] else if c = 'ì' then ['i', Char.ofNat 768]
  else if c = 'î' then ['i', Char.ofNat 770] else if c = 'ï' then ['i', Char.ofNat 776]
  else if c = 'ó' then ['o', Char.ofNat 769] else if c = 'ò' then ['o', Char.ofNat 768]
  else if c = 'ô' then ['o', Char.ofNat 770] else if c = 'ö' then ['o', Char.ofNat 776]
  else if c = 'õ' then ['o', Char.ofNat 771]
  else if c = 'ú' then ['u', Char.ofNat 769] else if c = 'ù' then ['u', Char.ofNat 768]
  else if c = 'û' then ['u', Char.ofNat 770] else if c = 'ü' then ['u', Char.ofNat 776]
  else if c = 'ñ' then ['n', Char.ofNat 771] else if c = 'ç' then ['c', Char.ofNat 807]
  else [c]

/-- NFD decomposition of a character list (concatenation of the per-character
decompositions, as `unicodedata.normalize("NFD", s)` produces for this
repertoire). -/
def decomposeList : List Char → List Char
  | [] => []
  | c :: rest => decomposeChar c ++ decomposeList rest

/-- Model of `unicodedata.category(ch) == "Mn"`: the combining diacritical
marks block U+0300..U+036F, which contains every mark `decomposeChar`
produces. -/
def isMn (c : Char) : Bool :=
  decide (768 ≤ c.toNat ∧ c.toNat ≤ 879)

/-- A character kept by the regex `[^a-z0-9\s]` removal: lowercase ASCII
letter, ASCII digit, or whitespace. -/
def isKept (c : Char) : Bool :=
  decide ('a' ≤ c ∧ c ≤ 'z') || decide ('0' ≤ c ∧ c ≤ '9') || isPySpace c

/-- Model of `re.sub(r"\s+", " ", s)`: every maximal run of whitespace is
replaced by a single space. -/
def collapseWs : List Char → List Char
  | [] => []
  | [c] => if isPySpace c then [' '] else [c]
  | c1 :: c2 :: rest =>
    if isPySpace c1 ∧ isPySpace c2 then collapseWs (c2 :: rest)
    else (if isPySpace c1 then ' ' else c1) :: collapseWs (c2 :: rest)

/-- `normalize_name` of `src/app.py` lines 59-68 on a character list:
`s.lower().strip()`, then NFD-decompose, then drop the combining marks,
then `re.sub(r"[^a-z0-9\s]", "", s)`, then `re.sub(r"\s+", " ", s)`.
Note the code strips leading/trailing whitespace FIRST and never again. -/
def normalizeChars (s : List Char) : List Char :=
  collapseWs (((decomposeList (pyStripChars (s.map pyLower))).filter
    (fun c => !(isMn c))).filter isKept)

/-- `normalize_name` of `src/app.py` (and identically `src/unnamed/part_000`). -/
def normalize_name (s : String) : String :=
  String.mk (normalizeChars s.data)

/-- C2: the claim asserts `normalize(normalize(s)) = normalize(s)` for every
string `s`, for the normalization algorithm that ends in a trim
(spec section 4.1).  The code of `src/app.py` strips whitespace first
instead of trimming last, so removing a trailing punctuation character can
leave a trailing space in the output: on the input `"a ."` the code returns
`"a "` (with trailing space), whose own normalization is `"a"`.  The claim's
idempotence equation therefore fails on the code at this input. -/
theorem normalize_name_not_idempotent_on_code :
    normalize_name "a ." = "a " ∧
    normalize_name (normalize_name "a .") = "a" ∧
    normalize_name (normalize_name "a .") ≠ normalize_name "a ." := by
  decide

/-! ## difflib.SequenceMatcher

`lookup_match` scores candidates with
`SequenceMatcher(None, key, norm).ratio()`: twice the total size of the
matching blocks divided by the total length.  The matching blocks are found
by recursively taking a longest matching block (`find_longest_match`) and
recursing on what lies to its left and to its right.  We model the matcher
without junk: no junk argument is passed in the source, and the autojunk
heuristic only engages for second arguments of length at least 200, far
beyond any worker name. -/

/-- One row of `find_longest_match`'s length table: `row j` is the length of
the longest common suffix of `a[..i]` and `b[..j]` (Python's `newj2len`),
built from the previous row exactly as `j2len.get(j-1, 0) + 1`. -/
def nextRow (c : Char) (b : List Char) (prev : List Nat) : List Nat :=
  (List.range b.length).map fun j =>
    if b[j]? = some c then (if j = 0 then 0 else prev.getD (j - 1) 0) + 1 else 0

/-- The result of `find_longest_match`: the block `a[i..i+k] = b[j..j+k]`. -/
structure Flm where
  i : Nat
  j : Nat
  k : Nat
deriving DecidableEq

/-- Scan one row `j` ascending, replacing the best block exactly when the new
length is strictly larger (`if k > bestsize`), as the Python inner loop does. -/
def bestInRow (i : Nat) (row : List Nat) (best : Flm) : Flm :=
  (List.range row.length).foldl
    (fun acc j =>
      let k := row.getD j 0
      if acc.k < k then ⟨i + 1 - k, j + 1 - k, k⟩ else acc) best

/-- The outer loop of `find_longest_match`: rows `i` ascending, carrying the
previous length table. -/
def flmAux (b : List Char) : List (Nat × Char) → List Nat → Flm → Flm
  | [], _, best => best
  | (i, c) :: rest, prev, best =>
    let row := nextRow c b prev
    flmAux b rest row (bestInRow i row best)

/-- `SequenceMatcher.find_longest_match` over the whole of `a` and `b`
(junk-free, see the section comment). -/
def find_longest_match (a b : List Char) : Flm :=
  flmAux b a.enum (List.replicate b.length 0) ⟨0, 0, 0⟩

/-- Total size of the matching blocks (the `matches` that
`SequenceMatcher.ratio` sums): take the longest match, recurse left and
right of it.  The recursion is driven by a fuel argument that strictly
exceeds the recursion depth (each level splits off a block of size ≥ 1, so
the depth is bounded by `|a| + |b|`); `find_longest_match` always returns a
block inside the two ranges, so the fuel is never exhausted. -/
def matchesTotalF : Nat → List Char → List Char → Nat
  | 0, _, _ => 0
  | fuel + 1, a, b =>
    let m := find_longest_match a b
    if m.k = 0 then 0
    else matchesTotalF fuel (a.take m.i) (b.take m.j) + m.k +
      matchesTotalF fuel (a.drop (m.i + m.k)) (b.drop (m.j + m.k))

/-- Total matching-block size between two character lists. -/
def matchesTotal (a b : List Char) : Nat :=
  matchesTotalF (a.length + b.length + 1) a b

/-- `SequenceMatcher(None, a, b).ratio()`: `2.0 * M / T` where `T` is the
summed length, and `1.0` when both strings are empty (difflib's
`_calculate_ratio`). -/
def ratio (a b : String) : ℚ :=
  if a.data.length + b.data.length = 0 then 1
  else 2 * (matchesTotal a.data b.data : ℚ) /
    ((a.data.length : ℚ) + (b.data.length : ℚ))

/-! ## The rate directory

`load_rate_database` (src/app.py lines 70-113) reads `(Name, Pay Rate)`
pairs from the header row onward, coerces the rate with
`pd.to_numeric(errors="coerce")` (non-numeric becomes NaN), drops rows with
a missing name or a NaN rate, and inserts the survivors into
`normalized_rates` / `norm_to_raw` keyed by the normalized name — a Python
dict, so a later row with the same key overwrites the earlier value while
keeping its insertion position.  We model a post-header row directly, a
missing (NaN) cell as `Cell.blank`, and the three parallel dicts plus
`normalized_keys` as one insertion-ordered association list. -/

/-- A spreadsheet cell as pandas presents it: missing (NaN), a string, or a
number. -/
inductive Cell where
  | blank : Cell
  | strv : String → Cell
  | num : ℚ → Cell
deriving DecidableEq

/-- All characters are ASCII digits. -/
def allDigits (l : List Char) : Bool :=
  l.all (fun c => decide ('0' ≤ c ∧ c ≤ '9'))

/-- Numeric value of a digit list (most significant first). -/
def natOfDigits (l : List Char) : Nat :=
  l.foldl (fun n c => n * 10 + (c.toNat - 48)) 0

/-- Parse an unsigned decimal literal (`"12"`, `"12.5"`, `".5"`, `"12."`),
as `pd.to_numeric` accepts. -/
def parseUnsigned (l : List Char) : Option ℚ :=
  match l.span (fun c => c != '.') with
  | (ip, []) =>
    if ip ≠ [] ∧ allDigits ip then some (natOfDigits ip) else none
  | (ip, _dot :: frac) =>
    if (ip ≠ [] ∨ frac ≠ []) ∧ allDigits ip ∧ allDigits frac then
      some ((natOfDigits ip : ℚ) + (natOfDigits frac : ℚ) / (10 : ℚ) ^ frac.length)
    else none

/-- Parse a signed decimal string (surrounding whitespace stripped, optional
sign), the numeric-string repertoire of `pd.to_numeric`. -/
def parseDecimal (s : String) : Option ℚ :=
  match pyStripChars s.data with
  | '-' :: rest => (parseUnsigned rest).map (fun q => -q)
  | '+' :: rest => parseUnsigned rest
  | l => parseUnsigned l

/-- `pd.to_numeric(cell, errors="coerce")` on one cell: a number stays, a
numeric string parses, anything else becomes NaN (`none`). -/
def toNumeric : Cell → Option ℚ
  | Cell.blank => none
  | Cell.num q => some q
  | Cell.strv s => parseDecimal s

/-- One rate-sheet row from the header onward: the Name cell (`none` models
a missing/NaN cell, which `dropna` removes) and the Pay Rate cell. -/
structure RateRow where
  name : Option String
  payRate : Cell
deriving DecidableEq

/-- A directory entry: `normalized_rates[norm] = rate` and
`norm_to_raw[norm] = raw`, stored in insertion order. -/
structure DirEntry where
  norm : String
  rate : ℚ
  raw : String
deriving DecidableEq

/-- Python-dict insertion: overwrite in place when the key exists, append
otherwise (keys keep their first-insertion position). -/
def insertEntry (d : List DirEntry) (e : DirEntry) : List DirEntry :=
  if d.any (fun x => x.norm == e.norm) then
    d.map (fun x => if x.norm == e.norm then e else x)
  else d ++ [e]

/-- The body of `load_rate_database`'s row loop: rows whose name is missing
or whose rate coerces to NaN were dropped by
`dropna(subset=["Name", "Pay Rate"])`; a surviving row is stripped and
inserted under its normalized name. -/
def loadStep (d : List DirEntry) (r : RateRow) : List DirEntry :=
  match r.name, toNumeric r.payRate with
  | some nm, some rate =>
    let raw := pyStrip nm
    insertEntry d ⟨normalize_name raw, rate, raw⟩
  | _, _ => d

/-- `load_rate_database` of `src/app.py` restricted to its core transform: the
`(Name, Pay Rate)` rows of a sheet from the header onward to the directory. -/
def load_rate_database (rows : List RateRow) : List DirEntry :=
  rows.foldl loadStep []

/-- A row `load_rate_database` retains: name present and numeric rate. -/
def rowOk (r : RateRow) : Bool :=
  r.name.isSome && (toNumeric r.payRate).isSome

/-! ## lookup_match (src/app.py lines 124-149) -/

/-- `DEFAULT_RATE = 15.0` (src/app.py line 56). -/
def DEFAULT_RATE : ℚ := 15

/-- `SIMILARITY_THRESHOLD = 0.60` (src/app.py line 57); the Settings tab can
change it, so the matcher below takes it as a parameter. -/
def SIMILARITY_THRESHOLD : ℚ := 0.60

/-- The fuzzy-scan loop body: replace the best candidate exactly when the
new ratio is strictly larger (`if ratio > best_ratio`).  We track the best
entry itself rather than its key string; the two are interchangeable because
directory keys are unique. -/
def fuzzyStep (norm : String) (acc : ℚ × Option DirEntry) (e : DirEntry) :
    ℚ × Option DirEntry :=
  if acc.1 < ratio e.norm norm then (ratio e.norm norm, some e) else acc

/-- The fuzzy scan over `normalized_keys` in insertion order, starting from
`best_ratio = 0.0`, `best_norm = None`. -/
def fuzzyBest (dir : List DirEntry) (norm : String) : ℚ × Option DirEntry :=
  dir.foldl (fuzzyStep norm) (0, none)

/-- `lookup_match` of `src/app.py`: empty canonical form short-circuits to
the default; an exact normalized key returns that entry at confidence 1.0;
otherwise the fuzzy scan, accepted when `best_norm` is truthy (non-empty —
its norm can in fact never be the empty string, since the ratio against a
non-empty input is then 0 and the scan only ever records strictly positive
ratios) and `best_ratio >= SIMILARITY_THRESHOLD`.  The module-level
directory and threshold are passed as parameters. -/
def lookup_match (dir : List DirEntry) (threshold : ℚ) (name : String) :
    Option String × ℚ × ℚ :=
  let norm := normalize_name name
  if norm = "" then (none, DEFAULT_RATE, 0)
  else
    match dir.find? (fun e => e.norm == norm) with
    | some e => (some e.raw, e.rate, 1)
    | none =>
      match fuzzyBest dir norm with
      | (bestRatio, some e) =>
        if e.norm ≠ "" ∧ threshold ≤ bestRatio then (some e.raw, e.rate, bestRatio)
        else (none, DEFAULT_RATE, bestRatio)
      | (bestRatio, none) => (none, DEFAULT_RATE, bestRatio)

/-! ## calculate_pay (src/app.py lines 161-194) -/

/-- One daily-hours record as the extraction layers hand them to
`calculate_pay`: `{'weekday': str, 'hours': float}`. -/
structure DailyRec where
  weekday : String
  hours : ℚ
deriving DecidableEq

/-- The day-partition loop of `calculate_pay`: accumulate
`(weekday_hours, sat_hours, sun_hours)` over the records, branching on the
exact strings "Saturday" and "Sunday" and defaulting to the weekday
bucket. -/
def tallyAux : (ℚ × ℚ × ℚ) → List DailyRec → ℚ × ℚ × ℚ
  | acc, [] => acc
  | acc, e :: rest =>
    if e.weekday == "Saturday" then tallyAux (acc.1, acc.2.1 + e.hours, acc.2.2) rest
    else if e.weekday == "Sunday" then tallyAux (acc.1, acc.2.1, acc.2.2 + e.hours) rest
    else tallyAux (acc.1 + e.hours, acc.2.1, acc.2.2) rest

/-- The partition step starting from the zeroed accumulators of the source. -/
def tallyHours (daily : List DailyRec) : ℚ × ℚ × ℚ :=
  tallyAux (0, 0, 0) daily

/-- The pay components `calculate_pay` derives from the three hour buckets
and the rate (src/app.py lines 185-193). -/
structure PayParts where
  regular_pay : ℚ
  overtime_pay : ℚ
  saturday_pay : ℚ
  sunday_pay : ℚ
  total_pay : ℚ
deriving DecidableEq

/-- Lines 185-193 of `src/app.py`: `overtime = max(0.0, weekday_hours - 50.0)`,
`regular_wd = weekday_hours - overtime`, the four products, and their sum. -/
def payFromHours (weekday_hours sat_hours sun_hours rate : ℚ) : PayParts :=
  let overtime := max 0 (weekday_hours - 50)
  let regular_wd := weekday_hours - overtime
  let pay_regular := regular_wd * rate
  let pay_overtime := overtime * rate * 1.5
  let pay_sat := sat_hours * rate * 1.5
  let pay_sun := sun_hours * rate * 1.75
  ⟨pay_regular, pay_overtime, pay_sat, pay_sun,
    pay_regular + pay_overtime + pay_sat + pay_sun⟩

/-- `calculate_pay` of `src/app.py`: look the name up, partition the daily
records, apply the pay rule, and return
`(weekday_hours, sat_hours, sun_hours, rate, total_pay, matched_raw, ratio)`
exactly as the source's tuple does. -/
def calculate_pay (dir : List DirEntry) (threshold : ℚ) (name : String)
    (daily : List DailyRec) : ℚ × ℚ × ℚ × ℚ × ℚ × Option String × ℚ :=
  let r := lookup_match dir threshold name
  let t := tallyHours daily
  let p := payFromHours t.1 t.2.1 t.2.2 r.2.1
  (t.1, t.2.1, t.2.2, r.2.1, p.total_pay, r.1, r.2.2)

/-! ## The export formulas (src/app.py lines 616-620)

The Excel export writes, for the row holding weekday hours G, Saturday
hours H, Sunday hours I and rate J, the formula strings
`=MIN(G,50)*J`, `=MAX(G-50,0)*J*1.5`, `=H*J*1.5`, `=I*J*1.75` and
`=K+L+M+N` (the sum of the four pay cells).  The definitions below are the
arithmetic those formulas denote. -/

/-- Value of `reg_formula`, `=MIN(G,50)*J`. -/
def reg_formula (wd rate : ℚ) : ℚ := min wd 50 * rate

/-- Value of `ot_formula`, `=MAX(G-50,0)*J*1.5`. -/
def ot_formula (wd rate : ℚ) : ℚ := max (wd - 50) 0 * rate * 1.5

/-- Value of `sat_formula`, `=H*J*1.5`. -/
def sat_formula (sat rate : ℚ) : ℚ := sat * rate * 1.5

/-- Value of `sun_formula`, `=I*J*1.75`. -/
def sun_formula (sun rate : ℚ) : ℚ := sun * rate * 1.75

/-- Value of `tot_formula`, `=K+L+M+N`: the sum of the four pay cells. -/
def tot_formula (k l m n : ℚ) : ℚ := k + l + m + n

/-! ## The drifted variant src/app_100%.py

Its `normalize_name` is NFKD + ASCII-encode-ignore + keep only letters +
lowercase (spaces and digits are removed too); its `load_rate_database`
calls `dropna()` BEFORE `pd.to_numeric(errors="coerce")`, so a non-numeric
rate string survives the drop and its coerced NaN flows into the directory;
its `lookup_match` has no fuzzy branch and returns the input name itself,
rate 15.0, ratio 0.0 when the canonical form is not an exact key. -/

/-- `normalize_name` of `src/app_100%.py`: NFKD-decompose (modelled by the
same decomposition table, whose repertoire NFD and NFKD agree on), drop
non-ASCII (the combining marks among them), keep `[a-zA-Z]` only,
lowercase. -/
def normalize_name_100 (s : String) : String :=
  String.mk ((((decomposeList s.data).filter (fun c => decide (c.toNat ≤ 127))).filter
    (fun c => decide ('a' ≤ c ∧ c ≤ 'z') || decide ('A' ≤ c ∧ c ≤ 'Z'))).map pyLower)

/-- A directory entry of the `app_100%` variant: the rate is `Option ℚ`
because `float(row["Pay Rate"])` there can be NaN (modelled `none`). -/
structure DirEntry100 where
  norm : String
  rate : Option ℚ
  raw : String
deriving DecidableEq

/-- Python-dict insertion for the variant directory. -/
def insertEntry100 (d : List DirEntry100) (e : DirEntry100) : List DirEntry100 :=
  if d.any (fun x => x.norm == e.norm) then
    d.map (fun x => if x.norm == e.norm then e else x)
  else d ++ [e]

/-- `load_rate_database` of `src/app_100%.py` lines 73-84: `dropna()` first
(dropping only rows with a missing cell), `to_numeric(errors="coerce")`
afterwards — so a row whose rate is a non-numeric string is inserted with a
NaN rate. -/
def load_rate_database_100 (rows : List RateRow) : List DirEntry100 :=
  rows.foldl (fun d r =>
    match r.name, r.payRate with
    | some _, Cell.blank => d
    | some nm, cell =>
      let raw := pyStrip nm
      insertEntry100 d ⟨normalize_name_100 raw, toNumeric cell, raw⟩
    | none, _ => d) []

/-- `lookup_match` of `src/app_100%.py` lines 86-90: exact normalized match
at confidence 1.0, otherwise return the INPUT name itself with the default
rate and ratio 0.0 — no fuzzy scan, no absent marker, no threshold. -/
def lookup_match_100 (dir : List DirEntry100) (name : String) :
    Option String × Option ℚ × ℚ :=
  let n := normalize_name_100 name
  match dir.find? (fun e => e.norm == n) with
  | some e => (some e.raw, e.rate, 1)
  | none => (some name, some (15 : ℚ), 0)

/-! ## Concrete fixtures used by the closed theorems and witnesses -/

/-- The directory of end-to-end scenario 1: exactly `{"John Smith": 20.0}`,
built through the loader itself. -/
def johnDir : List DirEntry :=
  load_rate_database [⟨some "John Smith", Cell.num 20⟩]

/-- The daily records of scenario 1: 45 weekday hours, 8 Saturday hours,
4 Sunday hours. -/
def scenario1Daily : List DailyRec :=
  [⟨"Monday", 45⟩, ⟨"Saturday", 8⟩, ⟨"Sunday", 4⟩]

/-! ## Supporting lemmas -/

/-- `find_longest_match` on an empty first string finds nothing. -/
lemma matchesTotalF_nil_left (fuel : Nat) (b : List Char) :
    matchesTotalF fuel [] b = 0 := by
  cases fuel with
  | zero => rfl
  | succ n =>
    have hflm : find_longest_match [] b = ⟨0, 0, 0⟩ := rfl
    simp [matchesTotalF, hflm]

/-- No matching blocks against the empty string. -/
lemma matchesTotal_nil_left (b : List Char) : matchesTotal [] b = 0 :=
  matchesTotalF_nil_left _ b

/-- A similarity ratio is never negative. -/
lemma ratio_nonneg (a b : String) : 0 ≤ ratio a b := by
  unfold ratio
  split
  · norm_num
  · positivity

/-- A nonempty string has similarity 0 with the empty string. -/
lemma ratio_empty_left (b : String) (hb : b ≠ "") : ratio "" b = 0 := by
  have hdata : ("" : String).data = [] := rfl
  have hbne : b.data.length ≠ 0 := by
    intro hlen
    apply hb
    cases b with
    | mk l =>
      cases l with
      | nil => rfl
      | cons c cs => simp at hlen
  have hcond : ¬(("" : String).data.length + b.data.length = 0) := by
    rw [hdata]
    simpa using hbne
  unfold ratio
  rw [if_neg hcond, hdata, matchesTotal_nil_left]
  simp

/-- Invariant of the fuzzy scan: the tracked ratio is nonnegative, a tracked
candidate's ratio is exactly the tracked (strictly positive) ratio, and no
candidate means the tracked ratio is still 0. -/
lemma fuzzyFold_inv (norm : String) (dir : List DirEntry) :
    ∀ (acc : ℚ × Option DirEntry),
      0 ≤ acc.1 →
      (∀ e, acc.2 = some e → acc.1 = ratio e.norm norm ∧ 0 < acc.1) →
      (acc.2 = none → acc.1 = 0) →
      0 ≤ (dir.foldl (fuzzyStep norm) acc).1 ∧
      (∀ e, (dir.foldl (fuzzyStep norm) acc).2 = some e →
        (dir.foldl (fuzzyStep norm) acc).1 = ratio e.norm norm ∧
        0 < (dir.foldl (fuzzyStep norm) acc).1) ∧
      ((dir.foldl (fuzzyStep norm) acc).2 = none →
        (dir.foldl (fuzzyStep norm) acc).1 = 0) := by
  induction dir with
  | nil => intro acc h0 hsome hnone; exact ⟨h0, hsome, hnone⟩
  | cons e rest ih =>
    intro acc h0 hsome hnone
    rw [List.foldl_cons]
    by_cases hlt : acc.1 < ratio e.norm norm
    · refine ih _ ?_ ?_ ?_ <;> simp [fuzzyStep, hlt]
      · exact le_of_lt (lt_of_le_of_lt h0 hlt)
      · exact lt_of_le_of_lt h0 hlt
    · refine ih _ ?_ ?_ ?_ <;> simp [fuzzyStep, hlt]
      · exact h0
      · exact hsome
      · exact hnone

/-- The fuzzy scan's tracked ratio only grows. -/
lemma fuzzyFold_le (norm : String) (dir : List DirEntry) :
    ∀ acc : ℚ × Option DirEntry, acc.1 ≤ (dir.foldl (fuzzyStep norm) acc).1 := by
  induction dir with
  | nil => intro acc; simp
  | cons e rest ih =>
    intro acc
    rw [List.foldl_cons]
    refine le_trans ?_ (ih (fuzzyStep norm acc e))
    unfold fuzzyStep
    split
    · exact le_of_lt (by assumption)
    · exact le_rfl

/-- Every scanned candidate's ratio is bounded by the final tracked ratio. -/
lemma fuzzyFold_ub (norm : String) (dir : List DirEntry) :
    ∀ (acc : ℚ × Option DirEntry) (e : DirEntry), e ∈ dir →
      ratio e.norm norm ≤ (dir.foldl (fuzzyStep norm) acc).1 := by
  induction dir with
  | nil => intro acc e he; simp at he
  | cons e0 rest ih =>
    intro acc e he
    rw [List.foldl_cons]
    rcases List.mem_cons.mp he with rfl | hrest
    · refine le_trans ?_ (fuzzyFold_le norm rest (fuzzyStep norm acc e))
      unfold fuzzyStep
      split
      · exact le_rfl
      · exact le_of_not_lt (by assumption)
    · exact ih _ e hrest

/-- The final tracked ratio is either the start value or some scanned
candidate's ratio. -/
lemma fuzzyFold_attained (norm : String) (dir : List DirEntry) :
    ∀ acc : ℚ × Option DirEntry,
      (dir.foldl (fuzzyStep norm) acc).1 = acc.1 ∨
      ∃ e ∈ dir, (dir.foldl (fuzzyStep norm) acc).1 = ratio e.norm norm := by
  induction dir with
  | nil => intro acc; exact Or.inl rfl
  | cons e0 rest ih =>
    intro acc
    rw [List.foldl_cons]
    rcases ih (fuzzyStep norm acc e0) with h | ⟨e, he, hratio⟩
    · rw [h]
      unfold fuzzyStep
      split
      · exact Or.inr ⟨e0, List.mem_cons_self _ _, rfl⟩
      · exact Or.inl rfl
    · exact Or.inr ⟨e, List.mem_cons_of_mem _ he, hratio⟩

/-- `fuzzyBest`'s facts at the source's start state. -/
lemma fuzzyBest_inv (dir : List DirEntry) (norm : String) :
    0 ≤ (fuzzyBest dir norm).1 ∧
    (∀ e, (fuzzyBest dir norm).2 = some e →
      (fuzzyBest dir norm).1 = ratio e.norm norm ∧ 0 < (fuzzyBest dir norm).1) ∧
    ((fuzzyBest dir norm).2 = none → (fuzzyBest dir norm).1 = 0) :=
  fuzzyFold_inv norm dir (0, none) le_rfl (by simp) (fun _ => rfl)

/-- In the fuzzy branch (nonempty canonical form, no exact key), the
returned confidence is `fuzzyBest`'s tracked maximum, in the accepted and
the rejected case alike, and rejection keeps the default rate. -/
lemma lookup_match_fuzzy_conf (dir : List DirEntry) (t : ℚ) (name : String)
    (hne : normalize_name name ≠ "")
    (hnf : dir.find? (fun e => e.norm == normalize_name name) = none) :
    (lookup_match dir t name).2.2 = (fuzzyBest dir (normalize_name name)).1 ∧
    ((lookup_match dir t name).1 = none →
      (lookup_match dir t name).2.1 = DEFAULT_RATE) := by
  unfold lookup_match
  rw [if_neg hne, hnf]
  cases hfb : fuzzyBest dir (normalize_name name) with
  | mk br bn =>
    cases bn with
    | none => exact ⟨rfl, fun _ => rfl⟩
    | some e =>
      by_cases hacc : e.norm ≠ "" ∧ t ≤ br
      · simp [if_pos hacc]
      · simp [if_neg hacc]

/-- The day-partition loop preserves the total of the hours: its three
buckets sum to the accumulator's total plus the records' total. -/
lemma tallyAux_sum (daily : List DailyRec) :
    ∀ acc : ℚ × ℚ × ℚ,
      (tallyAux acc daily).1 + (tallyAux acc daily).2.1 + (tallyAux acc daily).2.2 =
        acc.1 + acc.2.1 + acc.2.2 + (daily.map DailyRec.hours).sum := by
  induction daily with
  | nil => intro acc; simp [tallyAux]
  | cons e rest ih =>
    intro acc
    by_cases h1 : (e.weekday == "Saturday") = true
    · simp only [tallyAux, h1, if_true, List.map_cons, List.sum_cons]
      rw [ih]
      ring
    · by_cases h2 : (e.weekday == "Sunday") = true
      · simp only [tallyAux, h1, h2, if_false, if_true, Bool.false_eq_true,
          List.map_cons, List.sum_cons]
        rw [ih]
        ring
      · simp only [tallyAux, h1, h2, if_false, Bool.false_eq_true,
          List.map_cons, List.sum_cons]
        rw [ih]
        ring

/-- The spreadsheet `MIN` and the calculator's subtract-the-overtime compute
the same regular weekday hours. -/
lemma min_eq_sub_max (wd : ℚ) : min wd 50 = wd - max 0 (wd - 50) := by
  rcases le_total wd 50 with h | h
  · rw [min_eq_left h, max_eq_left (by linarith)]
    ring
  · rw [min_eq_right h, max_eq_right (by linarith)]
    ring

/-! ## The claims -/

/-- C1 (amended to the full matcher of src/app.py): for every directory and
input name, and every acceptance threshold `0 < t ≤ 1`, `lookup_match`
returns an absent `matched_name` exactly when the returned confidence is
strictly below `t`, and an absent `matched_name` always comes with the
process-wide default rate 15.0.  (The operation is a total function of its
inputs — it never raises.)  The claim as frozen also covers
`src/app_100%.py`'s `lookup_match`, which instead returns the input name
itself at confidence 0.0 when there is no exact key: see the
counterexample theorem. -/
theorem lookup_match_absent_iff_below_threshold
    (dir : List DirEntry) (t : ℚ) (name : String) (h0 : 0 < t) (h1 : t ≤ 1) :
    ((lookup_match dir t name).1 = none ↔ (lookup_match dir t name).2.2 < t) ∧
    ((lookup_match dir t name).1 = none →
      (lookup_match dir t name).2.1 = DEFAULT_RATE) := by
  unfold lookup_match
  by_cases hne : normalize_name name = ""
  · rw [if_pos hne]
    exact ⟨by simpa using h0, fun _ => rfl⟩
  · rw [if_neg hne]
    cases hf : List.find? (fun e => e.norm == normalize_name name) dir with
    | some e =>
      constructor
      · simp only [iff_iff_implies_and_implies]
        refine ⟨fun h => by simp at h, fun h => absurd (lt_of_le_of_lt h1 h) (lt_irrefl t)⟩
      · intro h
        simp at h
    | none =>
      have hinv := fuzzyBest_inv dir (normalize_name name)
      cases hfb : fuzzyBest dir (normalize_name name) with
      | mk br bn =>
        rw [hfb] at hinv
        cases bn with
        | none =>
          have hzero : br = 0 := hinv.2.2 rfl
          subst hzero
          exact ⟨by simpa using h0, fun _ => rfl⟩
        | some e =>
          by_cases hacc : e.norm ≠ "" ∧ t ≤ br
          · simp only [if_pos hacc]
            exact ⟨by simp [not_lt.mpr hacc.2], fun h => by simp at h⟩
          · simp only [if_neg hacc]
            have hbr : br = ratio e.norm (normalize_name name) ∧ 0 < br :=
              hinv.2.1 e rfl
            have hlt : br < t := by
              rcases not_and_or.mp hacc with hnorm | hle
              · exfalso
                have : e.norm = "" := not_not.mp hnorm
                rw [hbr.1, this, ratio_empty_left _ hne] at hbr
                exact lt_irrefl 0 hbr.2
              · exact lt_of_not_le hle
            exact ⟨by simpa using hlt, by simp⟩

/-- C5: for every non-negative rate and every record list, the calculator's
weekday pay follows the tiered rule — the overtime pay is
`max(0, weekday_hours - 50) * rate * 1.5` and the regular pay covers the
remaining weekday hours; at the boundary, 50 weekday hours give no overtime
pay while 50.01 give `0.01 * rate * 1.5`. -/
theorem weekday_overtime_tiered_rule (rate : ℚ) (daily : List DailyRec)
    (sat sun : ℚ) (hrate : 0 ≤ rate) :
    (payFromHours (tallyHours daily).1 sat sun rate).overtime_pay =
      max 0 ((tallyHours daily).1 - 50) * rate * 1.5 ∧
    (payFromHours (tallyHours daily).1 sat sun rate).regular_pay =
      ((tallyHours daily).1 - max 0 ((tallyHours daily).1 - 50)) * rate ∧
    ((tallyHours daily).1 = 50 →
      (payFromHours (tallyHours daily).1 sat sun rate).overtime_pay = 0) ∧
    ((tallyHours daily).1 = 50.01 →
      (payFromHours (tallyHours daily).1 sat sun rate).overtime_pay =
        0.01 * rate * 1.5) := by
  refine ⟨rfl, rfl, fun h => ?_, fun h => ?_⟩
  · simp only [payFromHours, h]
    norm_num
  · simp only [payFromHours, h]
    have : (50.01 : ℚ) - 50 = 0.01 := by norm_num
    rw [this, max_eq_right (by norm_num)]

/-- C7: hours conservation — the three buckets `calculate_pay` reports sum
to the total of the hours of all daily records it was fed, for every
directory, threshold, name and record list. -/
theorem hours_conservation (dir : List DirEntry) (threshold : ℚ) (name : String)
    (daily : List DailyRec) :
    (calculate_pay dir threshold name daily).1 +
      (calculate_pay dir threshold name daily).2.1 +
      (calculate_pay dir threshold name daily).2.2.1 =
      (daily.map DailyRec.hours).sum := by
  have h := tallyAux_sum daily (0, 0, 0)
  simp only [calculate_pay, tallyHours]
  simpa using h

/-- C8: the spreadsheet formulas the export writes
(`=MIN(wd,50)*rate`, `=MAX(wd-50,0)*rate*1.5`, `=sat*rate*1.5`,
`=sun*rate*1.75`, `=sum of the four`) compute exactly the calculator's four
pay components and total, for all non-negative hours and rate. -/
theorem export_formulas_agree (wd sat sun rate : ℚ)
    (h1 : 0 ≤ wd) (h2 : 0 ≤ sat) (h3 : 0 ≤ sun) (h4 : 0 ≤ rate) :
    reg_formula wd rate = (payFromHours wd sat sun rate).regular_pay ∧
    ot_formula wd rate = (payFromHours wd sat sun rate).overtime_pay ∧
    sat_formula sat rate = (payFromHours wd sat sun rate).saturday_pay ∧
    sun_formula sun rate = (payFromHours wd sat sun rate).sunday_pay ∧
    tot_formula (reg_formula wd rate) (ot_formula wd rate) (sat_formula sat rate)
      (sun_formula sun rate) = (payFromHours wd sat sun rate).total_pay := by
  have hreg : reg_formula wd rate = (payFromHours wd sat sun rate).regular_pay := by
    simp only [reg_formula, payFromHours]
    rw [min_eq_sub_max]
  have hot : ot_formula wd rate = (payFromHours wd sat sun rate).overtime_pay := by
    simp only [ot_formula, payFromHours]
    rw [max_comm]
  refine ⟨hreg, hot, rfl, rfl, ?_⟩
  simp only [tot_formula, sat_formula, sun_formula, payFromHours] at *
  rw [hreg, hot]

/-- C9: the day partition is case-sensitive and defaults to the weekday
bucket — hours land in the Saturday bucket exactly for the string
"Saturday", in the Sunday bucket exactly for "Sunday", and every other day
string (including "saturday", "SUNDAY", "Sat") is weekday hours, therefore
fed to the 50-hour overtime rule. -/
theorem partition_case_sensitive (day : String) (h : ℚ) (rate : ℚ) :
    tallyHours [⟨day, h⟩] =
      (if day = "Saturday" then ((0 : ℚ), h, (0 : ℚ))
       else if day = "Sunday" then ((0 : ℚ), (0 : ℚ), h)
       else (h, (0 : ℚ), (0 : ℚ))) ∧
    tallyHours [⟨"saturday", h⟩] = (h, 0, 0) ∧
    tallyHours [⟨"SUNDAY", h⟩] = (h, 0, 0) ∧
    tallyHours [⟨"Sat", h⟩] = (h, 0, 0) ∧
    (payFromHours (tallyHours [⟨"saturday", h⟩]).1 0 0 rate).overtime_pay =
      max 0 (h - 50) * rate * 1.5 := by
  refine ⟨?_, ?_, ?_, ?_, ?_⟩
  · by_cases h1 : day = "Saturday"
    · simp [tallyHours, tallyAux, h1]
    · by_cases h2 : day = "Sunday"
      · simp [tallyHours, tallyAux, h1, h2]
      · simp [tallyHours, tallyAux, h1, h2]
  · simp [tallyHours, tallyAux]
  · simp [tallyHours, tallyAux]
  · simp [tallyHours, tallyAux]
  · simp [tallyHours, tallyAux, payFromHours]

/-- C10 (amended): for every input whose canonical form is NON-EMPTY and is
a directory key, `lookup_match` returns that entry's raw name and rate at
confidence exactly 1.0, identically for any two thresholds (including
thresholds above 1.0) — the threshold is consulted only in the fuzzy
branch.  The non-emptiness proviso is forced: a directory can hold the
empty canonical name (e.g. from the raw name "!!!"), and an input
normalizing to "" then short-circuits to the unmatched default instead of
that entry — see the counterexample theorem. -/
theorem exact_match_threshold_independent (dir : List DirEntry) (name : String)
    (t1 t2 : ℚ) (e : DirEntry)
    (hne : normalize_name name ≠ "")
    (hf : dir.find? (fun x => x.norm == normalize_name name) = some e) :
    lookup_match dir t1 name = (some e.raw, e.rate, 1) ∧
    lookup_match dir t2 name = lookup_match dir t1 name := by
  have hval : ∀ t : ℚ, lookup_match dir t name = (some e.raw, e.rate, 1) := by
    intro t
    unfold lookup_match
    rw [if_neg hne, hf]
  exact ⟨hval t1, by rw [hval t1, hval t2]⟩

/-- C6 (amended to the full matcher of src/app.py): for every input name
whose canonical form is non-empty and is not an exact directory key, the
confidence `lookup_match` returns is the maximum similarity ratio between
the canonical input and the directory keys — an upper bound over all keys
that is attained at some key — and this holds in the rejected case too,
where `matched_name` is absent and the rate falls back to the default
15.0 while the best ratio is still reported.  The claim as frozen also
covers `src/app_100%.py`'s `lookup_match`, which performs no fuzzy scan
and reports 0.0 instead: see the counterexample theorem. -/
theorem fuzzy_confidence_is_max_ratio (dir : List DirEntry) (t : ℚ) (name : String)
    (hne : normalize_name name ≠ "")
    (hnf : dir.find? (fun e => e.norm == normalize_name name) = none) :
    (∀ e ∈ dir, ratio e.norm (normalize_name name) ≤ (lookup_match dir t name).2.2) ∧
    (dir ≠ [] →
      ∃ e ∈ dir, (lookup_match dir t name).2.2 = ratio e.norm (normalize_name name)) ∧
    ((lookup_match dir t name).1 = none →
      (lookup_match dir t name).2.1 = DEFAULT_RATE) := by
  obtain ⟨hconf, hrate⟩ := lookup_match_fuzzy_conf dir t name hne hnf
  have hfb : fuzzyBest dir (normalize_name name) =
      dir.foldl (fuzzyStep (normalize_name name)) (0, none) := rfl
  refine ⟨?_, ?_, hrate⟩
  · intro e he
    rw [hconf, hfb]
    exact fuzzyFold_ub (normalize_name name) dir (0, none) e he
  · intro hdne
    rw [hconf, hfb]
    rcases fuzzyFold_attained (normalize_name name) dir (0, none) with h | ⟨e, he, hr⟩
    · cases dir with
      | nil => exact absurd rfl hdne
      | cons e0 rest =>
        refine ⟨e0, List.mem_cons_self _ _, ?_⟩
        have hub := fuzzyFold_ub (normalize_name name) (e0 :: rest) (0, none) e0
          (List.mem_cons_self _ _)
        have hnn := ratio_nonneg e0.norm (normalize_name name)
        have hzero : ((e0 :: rest).foldl (fuzzyStep (normalize_name name)) (0, none)).1 = 0 := h
        rw [hzero]
        exact le_antisymm hnn (hzero ▸ hub)
    · exact ⟨e, he, hr⟩

/-- C4: end-to-end scenario 1 — with the directory `{"John Smith": 20.0}`
and the default threshold, the name "JOHN SMITH" matches "John Smith" at
confidence 1.0, and 45 weekday + 8 Saturday + 4 Sunday hours at rate 20
yield regular pay 900, overtime pay 0, Saturday pay 240, Sunday pay 140
and total pay 1280. -/
theorem end_to_end_scenario1 :
    calculate_pay johnDir SIMILARITY_THRESHOLD "JOHN SMITH" scenario1Daily =
      (45, 8, 4, 20, 1280, some "John Smith", 1) ∧
    payFromHours 45 8 4 20 =
      ⟨900, 0, 240, 140, 1280⟩ := by
  have hlu : lookup_match johnDir SIMILARITY_THRESHOLD "JOHN SMITH" =
      (some "John Smith", 20, 1) := by decide
  have ht : tallyHours scenario1Daily = (45, 8, 4) := by
    simp +decide [tallyHours, tallyAux, scenario1Daily]
  have hp : payFromHours 45 8 4 20 = ⟨900, 0, 240, 140, 1280⟩ := by
    simp only [payFromHours, PayParts.mk.injEq]
    norm_num [max_def]
  refine ⟨?_, hp⟩
  simp only [calculate_pay, hlu, ht, hp]

/-- C3 (the code of src/app_100%.py is the bug): src/app.py's build drops a
row whose rate fails numeric coercion, or is missing, or whose name is
missing, leaving the directory unchanged; src/app_100%.py's build runs
`dropna()` BEFORE `to_numeric(errors="coerce")`, so the same non-numeric
row ("x", "abc") survives the drop and is inserted with a NaN rate
(modelled `none`), contradicting the claim that every entry carries a
well-defined numeric rate. -/
theorem bad_rate_row_dropped_vs_nan :
    load_rate_database
        [⟨some "John Smith", Cell.num 20⟩, ⟨some "x", Cell.strv "abc"⟩,
          ⟨some "y", Cell.blank⟩, ⟨none, Cell.num 9⟩] =
      load_rate_database [⟨some "John Smith", Cell.num 20⟩] ∧
    load_rate_database_100
        [⟨some "John Smith", Cell.num 20⟩, ⟨some "x", Cell.strv "abc"⟩] =
      [⟨"johnsmith", some 20, "John Smith"⟩, ⟨"x", none, "x"⟩] := by
  constructor
  · decide
  · decide

/-- Counterexample to C1 as frozen: `src/app_100%.py`'s `lookup_match`
returns the input name itself (not an absent marker) with confidence 0.0
when nothing matches, so with the default threshold 0.60 — which satisfies
0 < t ≤ 1 — the confidence is strictly below the threshold while
`matched_name` is present. -/
theorem lookup_match_100_not_absent_below_threshold :
    (lookup_match_100 [] "Zxy Qqq").1 = some "Zxy Qqq" ∧
    (lookup_match_100 [] "Zxy Qqq").2.2 = 0 ∧
    (0 : ℚ) < SIMILARITY_THRESHOLD ∧ SIMILARITY_THRESHOLD ≤ 1 := by
  refine ⟨by decide, by decide, by norm_num [SIMILARITY_THRESHOLD],
    by norm_num [SIMILARITY_THRESHOLD]⟩

/-- A directory whose single entry has the EMPTY canonical name: the raw
name "!!!" normalizes to "", and `load_rate_database` retains it (the name
cell is present and the rate is numeric). -/
def bangDir : List DirEntry :=
  load_rate_database [⟨some "!!!", Cell.num 10⟩]

/-- Counterexample to C10 as frozen: the input "?" has canonical form "",
which IS a key of `bangDir`, yet `lookup_match` does not return that entry
at confidence 1.0 — the empty canonical form short-circuits to the
unmatched default `(absent, 15.0, 0.0)` before the exact lookup runs. -/
theorem exact_match_empty_key_cex :
    normalize_name "?" = "" ∧
    (bangDir.map DirEntry.norm).contains (normalize_name "?") = true ∧
    lookup_match bangDir SIMILARITY_THRESHOLD "?" = (none, DEFAULT_RATE, 0) ∧
    (lookup_match bangDir SIMILARITY_THRESHOLD "?").2.2 ≠ 1 := by
  refine ⟨by decide, by decide, by decide, by decide⟩

/-- The `app_100%` directory `{"Ab": 20.0}` (canonical key "ab"). -/
def abDir100 : List DirEntry100 :=
  load_rate_database_100 [⟨some "Ab", Cell.num 20⟩]

/-- Counterexample to C6 as frozen: `src/app_100%.py`'s `lookup_match` does
no fuzzy scan — for the input "Ax" (canonical form "ax", non-empty and not
a key of the directory `{"Ab": 20.0}`) it reports confidence 0.0 and the
input name itself, although the maximum ratio over the directory keys is
`ratio "ab" "ax" = 1/2 ≠ 0`. -/
theorem lookup_match_100_ignores_best_ratio :
    normalize_name_100 "Ax" ≠ "" ∧
    abDir100.find? (fun e => e.norm == normalize_name_100 "Ax") = none ∧
    abDir100.map DirEntry100.norm = ["ab"] ∧
    (lookup_match_100 abDir100 "Ax").2.2 = 0 ∧
    (lookup_match_100 abDir100 "Ax").1 = some "Ax" ∧
    ratio "ab" (normalize_name_100 "Ax") = 1 / 2 := by
  have hnorm : normalize_name_100 "Ax" = "ax" := by decide
  refine ⟨by decide, by decide, by decide, by decide, by decide, ?_⟩
  rw [hnorm]
  have hm : matchesTotal "ab".data "ax".data = 1 := by decide
  have hla : ("ab" : String).data.length = 2 := rfl
  have hlb : ("ax" : String).data.length = 2 := rfl
  unfold ratio
  rw [if_neg (by decide), hm, hla, hlb]
  norm_num

/-! ## Witnesses -/

/-- Witness for C1's theorem at the concrete directory `{"John Smith": 20.0}`,
the default threshold 0.60 and the input "JOHN SMITH". -/
theorem lookup_match_absent_iff_below_threshold_witness :
    (0 : ℚ) < SIMILARITY_THRESHOLD ∧ SIMILARITY_THRESHOLD ≤ 1 ∧
    (((lookup_match johnDir SIMILARITY_THRESHOLD "JOHN SMITH").1 = none ↔
        (lookup_match johnDir SIMILARITY_THRESHOLD "JOHN SMITH").2.2 <
          SIMILARITY_THRESHOLD) ∧
      ((lookup_match johnDir SIMILARITY_THRESHOLD "JOHN SMITH").1 = none →
        (lookup_match johnDir SIMILARITY_THRESHOLD "JOHN SMITH").2.1 =
          DEFAULT_RATE)) :=
  ⟨by norm_num [SIMILARITY_THRESHOLD], by norm_num [SIMILARITY_THRESHOLD],
    lookup_match_absent_iff_below_threshold johnDir SIMILARITY_THRESHOLD "JOHN SMITH"
      (by norm_num [SIMILARITY_THRESHOLD]) (by norm_num [SIMILARITY_THRESHOLD])⟩

/-- Witness for C5's theorem at rate 20 and a single 50.01-hour weekday
record. -/
theorem weekday_overtime_tiered_rule_witness :
    (0 : ℚ) ≤ 20 ∧
    ((payFromHours (tallyHours [⟨"Monday", 50.01⟩]).1 0 0 20).overtime_pay =
        max 0 ((tallyHours [⟨"Monday", 50.01⟩]).1 - 50) * 20 * 1.5 ∧
      (payFromHours (tallyHours [⟨"Monday", 50.01⟩]).1 0 0 20).regular_pay =
        ((tallyHours [⟨"Monday", 50.01⟩]).1 -
          max 0 ((tallyHours [⟨"Monday", 50.01⟩]).1 - 50)) * 20 ∧
      ((tallyHours [⟨"Monday", 50.01⟩]).1 = 50 →
        (payFromHours (tallyHours [⟨"Monday", 50.01⟩]).1 0 0 20).overtime_pay = 0) ∧
      ((tallyHours [⟨"Monday", 50.01⟩]).1 = 50.01 →
        (payFromHours (tallyHours [⟨"Monday", 50.01⟩]).1 0 0 20).overtime_pay =
          0.01 * 20 * 1.5)) :=
  ⟨by norm_num,
    weekday_overtime_tiered_rule 20 [⟨"Monday", 50.01⟩] 0 0 (by norm_num)⟩

/-- Witness for C6's theorem at the directory `{"John Smith": 20.0}` and the
typo input "Jon Smithe" (canonical form non-empty and not a key). -/
theorem fuzzy_confidence_is_max_ratio_witness :
    normalize_name "Jon Smithe" ≠ "" ∧
    johnDir.find? (fun e => e.norm == normalize_name "Jon Smithe") = none ∧
    ((∀ e ∈ johnDir, ratio e.norm (normalize_name "Jon Smithe") ≤
        (lookup_match johnDir SIMILARITY_THRESHOLD "Jon Smithe").2.2) ∧
      (johnDir ≠ [] → ∃ e ∈ johnDir,
        (lookup_match johnDir SIMILARITY_THRESHOLD "Jon Smithe").2.2 =
          ratio e.norm (normalize_name "Jon Smithe")) ∧
      ((lookup_match johnDir SIMILARITY_THRESHOLD "Jon Smithe").1 = none →
        (lookup_match johnDir SIMILARITY_THRESHOLD "Jon Smithe").2.1 =
          DEFAULT_RATE)) :=
  ⟨by decide, by decide,
    fuzzy_confidence_is_max_ratio johnDir SIMILARITY_THRESHOLD "Jon Smithe"
      (by decide) (by decide)⟩

/-- Witness for C8's theorem at 60 weekday, 8 Saturday, 4 Sunday hours and
rate 20. -/
theorem export_formulas_agree_witness :
    (0 : ℚ) ≤ 60 ∧ (0 : ℚ) ≤ 8 ∧ (0 : ℚ) ≤ 4 ∧ (0 : ℚ) ≤ 20 ∧
    (reg_formula 60 20 = (payFromHours 60 8 4 20).regular_pay ∧
      ot_formula 60 20 = (payFromHours 60 8 4 20).overtime_pay ∧
      sat_formula 8 20 = (payFromHours 60 8 4 20).saturday_pay ∧
      sun_formula 4 20 = (payFromHours 60 8 4 20).sunday_pay ∧
      tot_formula (reg_formula 60 20) (ot_formula 60 20) (sat_formula 8 20)
        (sun_formula 4 20) = (payFromHours 60 8 4 20).total_pay) :=
  ⟨by norm_num, by norm_num, by norm_num, by norm_num,
    export_formulas_agree 60 8 4 20 (by norm_num) (by norm_num) (by norm_num)
      (by norm_num)⟩

/-- Witness for C10's theorem at the directory `{"John Smith": 20.0}`, the
input "JOHN SMITH" and the thresholds 0.6 and 1.5 (the latter above 1.0). -/
theorem exact_match_threshold_independent_witness :
    normalize_name "JOHN SMITH" ≠ "" ∧
    johnDir.find? (fun x => x.norm == normalize_name "JOHN SMITH") =
      some ⟨"john smith", 20, "John Smith"⟩ ∧
    (lookup_match johnDir 0.6 "JOHN SMITH" = (some "John Smith", 20, 1) ∧
      lookup_match johnDir 1.5 "JOHN SMITH" =
        lookup_match johnDir 0.6 "JOHN SMITH") :=
  ⟨by decide, by decide,
    exact_match_threshold_independent johnDir "JOHN SMITH" 0.6 1.5
      ⟨"john smith", 20, "John Smith"⟩ (by decide) (by decide)⟩

end PRL
